import Mathlib

/-!
Verification development for the ical-aggregator repository.

The repository tree at hand contains the web frontend (React components, in
particular the eventDataTransform function of src/unnamed/part_000) and the
README.  The aggregation backend described by the specification (feed
fetcher, ICS parser, calendar merger, cache store, refresh scheduler and
HTTP serving layer) is not present in the tree, so those components are
modelled from the specification; every such definition carries a doc
comment starting with "Modelled from the spec:".  The frontend definitions
are translated directly from the TypeScript source.
-/

/- ===================== Frontend (from src/unnamed/part_000) ============ -/

/-- TS record EventInput as used by eventDataTransform in
src/unnamed/part_000: the field url is a string or undefined, modelled as
Option String; extendedProps is an optional open JS object, modelled as an
insertion-ordered association list whose values may be undefined; the other
fields the calendar code touches are carried along unchanged. -/
structure EventInput where
  url : Option String
  extendedProps : Option (List (String × Option String))
  title : Option String
  start : Option String
  end_ : Option String
  allDay : Option Bool
  color : Option String
deriving DecidableEq

/-- JS property assignment obj.k := v on an object modelled as an ordered
association list: overwrite the first binding of k in place, otherwise
append a new binding at the end. -/
def setProp : List (String × Option String) → String → Option String → List (String × Option String)
  | [], k, v => [(k, v)]
  | p :: ps, k, v => if p.1 = k then (k, v) :: ps else p :: setProp ps k v

/-- JS property read obj.k on the same object model: the first binding of k,
none when the key is absent. -/
def getProp : List (String × Option String) → String → Option (Option String)
  | [], _ => none
  | p :: ps, k => if p.1 = k then some p.2 else getProp ps k

/-- eventDataTransform from src/unnamed/part_000 lines 44-50: take the
existing extendedProps object (or a fresh empty one), store the incoming
top-level url under its key url, write the object back, and blank the
top-level url to disable default navigation. -/
def eventDataTransform (input : EventInput) : EventInput :=
  let props := input.extendedProps.getD []
  let props := setProp props "url" input.url
  { input with extendedProps := some props, url := some "" }

/- ===================== Backend data model (modelled) =================== -/

/-- Modelled from the spec: FeedSource (section 3) — a feed source is
identified by its URL.  The backend is absent from the source tree, so it
and everything below it are modelled from the specification. -/
abbrev FeedSource : Type := String

/-- Modelled from the spec: CalendarEvent (section 3): source UID, start
timestamp, optional end timestamp, optional title / description / location,
the originating source URL as provenance, and an open key-to-raw-value bag
of extended properties preserving unrecognized ICS fields. -/
structure CalendarEvent where
  uid : String
  start : Nat
  end_ : Option Nat
  title : Option String
  description : Option String
  location : Option String
  sourceUrl : String
  extendedProps : List (String × String)
deriving DecidableEq

/-- Modelled from the spec: the namespaced event identifier (section 3):
the source reference paired with the source UID, disambiguating UID
collisions across sources. -/
def namespacedId (e : CalendarEvent) : String × String := (e.sourceUrl, e.uid)

/- ===================== ICS parser (modelled) =========================== -/

/-- Modelled from the spec: numeric value of a decimal digit character. -/
def digitVal (c : Char) : Nat := c.toNat - 48

/-- Modelled from the spec: the number denoted by a digit string. -/
def digitsVal (cs : List Char) : Nat := cs.foldl (fun a c => a * 10 + digitVal c) 0

/-- Modelled from the spec: parsing of DTSTART/DTEND values (section 4.2):
the ICS basic date-time form YYYYMMDDTHHMMSS with an optional UTC Z suffix;
the timestamp is the fourteen digits read as one number, a monotone
encoding adequate for the ordering and equality the spec relies on. -/
def parseDT (s : String) : Option Nat :=
  let cs := s.toList
  let cs := if cs.getLast? = some 'Z' then cs.dropLast else cs
  match cs with
  | [y1, y2, y3, y4, mo1, mo2, d1, d2, t, h1, h2, mi1, mi2, s1, s2] =>
    if (t == 'T') && [y1, y2, y3, y4, mo1, mo2, d1, d2, h1, h2, mi1, mi2, s1, s2].all Char.isDigit
    then some (digitsVal [y1, y2, y3, y4, mo1, mo2, d1, d2, h1, h2, mi1, mi2, s1, s2])
    else none
  | _ => none

/-- Modelled from the spec: split an ICS content line at its first colon
into the name-with-parameters part and the raw value; none when the line
has no colon at all (such a line makes its block malformed). -/
def splitAtColon : List Char → Option (List Char × List Char)
  | [] => none
  | c :: cs =>
    if c = ':' then some ([], cs)
    else (splitAtColon cs).map (fun p => (c :: p.1, p.2))

/-- Modelled from the spec: the property names the parser recognizes as
dedicated CalendarEvent fields (section 4.2); every other name is preserved
into the extended-properties bag. -/
def recognizedNames : List String :=
  ["UID", "DTSTART", "DTEND", "SUMMARY", "DESCRIPTION", "LOCATION"]

/-- Modelled from the spec: accumulator state while parsing the content
lines of one VEVENT block. -/
structure BlockState where
  uid : Option String
  dtstart : Option Nat
  dtend : Option Nat
  summary : Option String
  description : Option String
  location : Option String
  ext : List (String × String)
  broken : Bool
deriving DecidableEq

/-- Modelled from the spec: the empty block-parsing state. -/
def initBlockState : BlockState :=
  { uid := none, dtstart := none, dtend := none, summary := none,
    description := none, location := none, ext := [], broken := false }

/-- Modelled from the spec: consume one content line of a VEVENT block
(section 4.2).  The name part before the first colon, with any
semicolon-separated parameters stripped, selects the field: UID, DTSTART,
DTEND, SUMMARY, DESCRIPTION and LOCATION are recognized; any other name —
in particular every X- prefixed one — is appended with its raw value to the
extended-properties bag.  A line without a colon, or an unparseable
DTSTART/DTEND value, marks the block malformed. -/
def parseProp (st : BlockState) (line : String) : BlockState :=
  match splitAtColon line.toList with
  | none => { st with broken := true }
  | some (nameRaw, valueRaw) =>
    let name := String.mk (nameRaw.takeWhile (fun c => c != ';'))
    let value := String.mk valueRaw
    if name = "UID" then { st with uid := some value }
    else if name = "DTSTART" then
      match parseDT value with
      | some t => { st with dtstart := some t }
      | none => { st with broken := true }
    else if name = "DTEND" then
      match parseDT value with
      | some t => { st with dtend := some t }
      | none => { st with broken := true }
    else if name = "SUMMARY" then { st with summary := some value }
    else if name = "DESCRIPTION" then { st with description := some value }
    else if name = "LOCATION" then { st with location := some value }
    else { st with ext := st.ext ++ [(name, value)] }

/-- Modelled from the spec: parse one VEVENT block from its content lines
(BEGIN/END markers already removed).  A block containing a malformed line,
or lacking a UID or a parseable DTSTART, is malformed and yields none; the
caller skips and counts it (section 4.2). -/
def parseBlock (src : String) (lines : List String) : Option CalendarEvent :=
  let st := lines.foldl parseProp initBlockState
  if st.broken then none
  else
    match st.uid, st.dtstart with
    | some u, some t =>
      some { uid := u, start := t, end_ := st.dtend, title := st.summary,
             description := st.description, location := st.location,
             sourceUrl := src, extendedProps := st.ext }
    | _, _ => none

/-- Modelled from the spec: cut the line sequence of an ICS document into
VEVENT blocks delimited by BEGIN:VEVENT and END:VEVENT lines; lines outside
any block are ignored, and an unterminated trailing block is dropped. -/
def scanBlocks : List String → Option (List String) → List (List String)
  | [], _ => []
  | l :: ls, none =>
    if l = "BEGIN:VEVENT" then scanBlocks ls (some []) else scanBlocks ls none
  | l :: ls, some acc =>
    if l = "END:VEVENT" then acc :: scanBlocks ls none
    else scanBlocks ls (some (acc ++ [l]))

/-- Modelled from the spec: result of parsing one raw ICS document
(section 4.2): the successfully parsed events together with the recorded
count of skipped malformed blocks. -/
structure ParseResult where
  events : List CalendarEvent
  skipped : Nat
deriving DecidableEq

/-- Modelled from the spec: document-level parse over the lines of the document:
a text without any BEGIN:VCALENDAR line is not ICS at all and is a
source-level failure; otherwise every well-formed VEVENT block is parsed
and every malformed one is skipped and counted, never failing the parse as
a whole (section 4.2). -/
def parseIcsLines (src : String) (lines : List String) : Except String ParseResult :=
  if lines.contains "BEGIN:VCALENDAR" then
    let blocks := scanBlocks lines none
    Except.ok { events := blocks.filterMap (parseBlock src),
                skipped := (blocks.filter (fun b => (parseBlock src b).isNone)).length }
  else Except.error "not an ICS document"

/-- Modelled from the spec: split raw ICS text into lines, accepting CRLF
as well as bare LF line endings. -/
def splitLinesAux : List Char → List Char → List String
  | [], acc => [String.mk acc.reverse]
  | '\r' :: '\n' :: cs, acc => String.mk acc.reverse :: splitLinesAux cs []
  | '\n' :: cs, acc => String.mk acc.reverse :: splitLinesAux cs []
  | c :: cs, acc => splitLinesAux cs (c :: acc)

/-- Modelled from the spec: the lines of a raw ICS text. -/
def splitIcsLines (raw : String) : List String := splitLinesAux raw.toList []

/-- Modelled from the spec: the full parser entry point of section 4.2. -/
def parseIcs (src : String) (raw : String) : Except String ParseResult :=
  parseIcsLines src (splitIcsLines raw)

/-- Modelled from the spec: wrap the content lines of one block in its
BEGIN:VEVENT / END:VEVENT markers (used to describe well-formed documents
in the parser theorems). -/
def veventWrap (b : List String) : List String :=
  "BEGIN:VEVENT" :: b ++ ["END:VEVENT"]

/-- Modelled from the spec: the line sequence of an ICS document whose body
is the given sequence of VEVENT blocks. -/
def docLines (blocks : List (List String)) : List String :=
  "BEGIN:VCALENDAR" :: (blocks.map veventWrap).flatten ++ ["END:VCALENDAR"]

/- ===================== Fetcher and pipeline (modelled) ================= -/

/-- Modelled from the spec: fetch error classification of the Feed Fetcher
(section 4.1): network/connection failure, timeout, non-success HTTP
status, empty body, each tagged distinctly. -/
inductive FetchError
  | network
  | timeout
  | badStatus (code : Nat)
  | emptyBody
deriving DecidableEq

/-- Modelled from the spec: human-readable diagnostic for a fetch error. -/
def FetchError.describe : FetchError → String
  | .network => "network failure"
  | .timeout => "timeout"
  | .badStatus code => "http status " ++ toString code
  | .emptyBody => "empty body"

/-- Modelled from the spec: one per-source outcome handed to the Merger:
the source reference together with either its parsed events or a failure
diagnostic (fetch or whole-document parse failure). -/
structure SourceOutcome where
  source : String
  result : Except String (List CalendarEvent)

/-- Modelled from the spec: the events a source contributes to the cycle:
its parsed events on success, zero events on failure (section 4.3). -/
def outcomeEvents (o : SourceOutcome) : List CalendarEvent :=
  match o.result with
  | Except.ok evs => evs
  | Except.error _ => []

/-- Modelled from the spec: one per-source fetch-then-parse pipeline of a
refresh cycle (sections 4.1, 4.2, 4.5): at most one fetch attempt; a fetch
error or a whole-document parse failure is recorded as a source-level
failure, a successful parse contributes its events. -/
def runPipeline (fetch : String → Except FetchError String) (src : String) : SourceOutcome :=
  { source := src,
    result :=
      match fetch src with
      | Except.error e => Except.error e.describe
      | Except.ok raw =>
        match parseIcs src raw with
        | Except.error msg => Except.error msg
        | Except.ok pr => Except.ok pr.events }

/- ===================== Merger (modelled) =============================== -/

/-- Modelled from the spec: an event tagged with its position in the
concatenation of the contributions of the sources (configured source order, then
original within-source order) — the tie-break key of the deterministic
merge ordering (section 4.3). -/
structure TaggedEvent where
  idx : Nat
  ev : CalendarEvent
deriving DecidableEq

/-- Modelled from the spec: the merge ordering of section 4.3: by start
timestamp, ties broken by concatenation position (source order, then
within-source order). -/
def tagLe (a b : TaggedEvent) : Prop :=
  a.ev.start < b.ev.start ∨ (a.ev.start = b.ev.start ∧ a.idx ≤ b.idx)

instance : DecidableRel tagLe := fun a b => by unfold tagLe; infer_instance

instance : IsTotal TaggedEvent tagLe := ⟨by intro a b; unfold tagLe; omega⟩

instance : IsTrans TaggedEvent tagLe := ⟨by intro a b c; unfold tagLe; omega⟩

/-- Modelled from the spec: concatenation of the events contributed by the
outcomes, in configured source order. -/
def concatEvents (outcomes : List SourceOutcome) : List CalendarEvent :=
  (outcomes.map outcomeEvents).flatten

/-- Modelled from the spec: tag each event of a sequence with its
position. -/
def tagEvents (evs : List CalendarEvent) : List TaggedEvent :=
  evs.enum.map (fun p => { idx := p.1, ev := p.2 })

/-- Modelled from the spec: the merged, deterministically ordered tagged
sequence of a cycle: the stable sort by start timestamp of the tagged
concatenation, realised as a sort by the total order on (start, position). -/
def mergeTagged (outcomes : List SourceOutcome) : List TaggedEvent :=
  List.insertionSort tagLe (tagEvents (concatEvents outcomes))

/-- Modelled from the spec: MergedCalendar (section 3): calendar-level
name, generation timestamp, and the ordered merged events. -/
structure MergedCalendar where
  name : String
  generatedAt : Nat
  events : List CalendarEvent
deriving DecidableEq

/-- Modelled from the spec: the Calendar Merger (section 4.3): when every
source failed, the cycle fails; otherwise the events of the succeeding sources
are merged in the deterministic order, failed sources contributing zero
events without aborting the merge. -/
def runMerger (name : String) (now : Nat) (outcomes : List SourceOutcome) :
    Except String MergedCalendar :=
  if outcomes.all (fun o => !o.result.isOk) then Except.error "all sources failed"
  else Except.ok { name := name, generatedAt := now,
                   events := (mergeTagged outcomes).map TaggedEvent.ev }

/- ===================== Serialization (modelled) ======================== -/

/-- Modelled from the spec: serialize one merged event back to ICS text;
the UID line carries the namespaced identifier (source reference and source
UID), and the extended properties are written back out. -/
def serializeEvent (e : CalendarEvent) : String :=
  "BEGIN:VEVENT\r\n" ++
  "UID:" ++ e.sourceUrl ++ "/" ++ e.uid ++ "\r\n" ++
  "DTSTART:" ++ toString e.start ++ "\r\n" ++
  (match e.end_ with | some t => "DTEND:" ++ toString t ++ "\r\n" | none => "") ++
  (match e.title with | some s => "SUMMARY:" ++ s ++ "\r\n" | none => "") ++
  (match e.description with | some s => "DESCRIPTION:" ++ s ++ "\r\n" | none => "") ++
  (match e.location with | some s => "LOCATION:" ++ s ++ "\r\n" | none => "") ++
  String.join (e.extendedProps.map (fun p => p.1 ++ ":" ++ p.2 ++ "\r\n")) ++
  "END:VEVENT\r\n"

/-- Modelled from the spec: the fixed header of every serialized calendar. -/
def icsHeader : String := "BEGIN:VCALENDAR\r\nVERSION:2.0\r\nPRODID:ical-aggregator\r\n"

/-- Modelled from the spec: the fixed trailer of every serialized
calendar. -/
def icsFooter : String := "END:VCALENDAR\r\n"

/-- Modelled from the spec: serialize a merged calendar to ICS text; the
generation timestamp is metadata and is not serialized, so identical merged
inputs give byte-identical output across cycles. -/
def serializeIcs (cal : MergedCalendar) : String :=
  icsHeader ++ String.join (cal.events.map serializeEvent) ++ icsFooter

/-- Modelled from the spec: a complete, well-formed serialized ICS body —
the calendar wrapper is intact around some body text (the form every
served body must have, never partial or corrupt). -/
def wellFormedIcs (s : String) : Prop :=
  ∃ mid, s = icsHeader ++ mid ++ icsFooter

/- ===================== Cache store and scheduler (modelled) ============ -/

/-- Modelled from the spec: CacheEntry (section 3): the merged calendar
with its pre-serialized ICS text, the last-updated timestamp, and the
per-source error summaries of the cycle for observability; replaced
wholesale, never mutated in place. -/
structure CacheEntry where
  calendar : MergedCalendar
  ics : String
  lastUpdated : Nat
  sourceErrors : List (String × String)
deriving DecidableEq

/-- Modelled from the spec: build the CacheEntry a successful cycle
installs: the merged calendar, its serialization, the cycle timestamp and
the failure diagnostics of the sources that failed. -/
def mkCacheEntry (now : Nat) (cal : MergedCalendar) (outcomes : List SourceOutcome) :
    CacheEntry :=
  { calendar := cal, ics := serializeIcs cal, lastUpdated := now,
    sourceErrors := outcomes.filterMap (fun o =>
      match o.result with
      | Except.error e => some (o.source, e)
      | Except.ok _ => none) }

/-- Modelled from the spec: the scheduler-visible state of the Cache
Store: the live entry (none is the not-yet-warmed sentinel) plus the
number of replace calls performed, which lets the call-count properties be
stated. -/
structure SchedState where
  cache : Option CacheEntry
  replaceCalls : Nat
deriving DecidableEq

/-- Modelled from the spec: the state at process start: cache not yet
warmed, no replace performed. -/
def initSchedState : SchedState := { cache := none, replaceCalls := 0 }

/-- Modelled from the spec: the atomic replace of the Cache Store
(section 4.4): the live entry is swapped wholesale. -/
def replaceEntry (st : SchedState) (entry : CacheEntry) : SchedState :=
  { cache := some entry, replaceCalls := st.replaceCalls + 1 }

/-- Modelled from the spec: the read of the Cache Store (section 4.4): a
pure snapshot of the current entry, none being the not-yet-warmed
sentinel. -/
def readEntry (st : SchedState) : Option CacheEntry := st.cache

/-- Modelled from the spec: one refresh cycle of the scheduler
(section 4.5): run the pipeline of every configured source, hand all outcomes to
the merger; on success replace the store exactly once with the fresh
entry; on total failure skip the swap and keep the previous entry
untouched. -/
def runCycle (cfg : List String) (fetch : String → Except FetchError String)
    (name : String) (now : Nat) (st : SchedState) : SchedState :=
  let outcomes := cfg.map (runPipeline fetch)
  match runMerger name now outcomes with
  | Except.error _ => st
  | Except.ok cal => replaceEntry st (mkCacheEntry now cal outcomes)

/-- Modelled from the spec: start time of the k-th refresh cycle
(section 4.5): the first cycle runs immediately at process start (time 0),
thereafter one cycle per interval. -/
def cycleStart (interval : Nat) (k : Nat) : Nat := k * interval

/-- Modelled from the spec: the scheduler state after the first n cycles
from process start; the fetch environment may differ per cycle. -/
def runCycles (cfg : List String) (fetch : Nat → String → Except FetchError String)
    (name : String) (interval : Nat) : Nat → SchedState
  | 0 => initSchedState
  | n + 1 => runCycle cfg (fetch n) name (cycleStart interval n) (runCycles cfg fetch name interval n)

/- ===================== HTTP serving layer (modelled) =================== -/

/-- Modelled from the spec: an HTTP response of the serving layer. -/
structure HttpResponse where
  status : Nat
  contentType : String
  body : String
deriving DecidableEq

/-- Modelled from the spec: the GET /calendar.ics handler (sections 4.6
and 6): on a warm cache serve the cached pre-serialized calendar with
status 200 and Content-Type text/calendar; before the first warm-up serve
a 503 with a retry hint (the implementation choice the spec allows); the
handler never triggers a fetch. -/
def handleCalendarGet (st : SchedState) : HttpResponse :=
  match readEntry st with
  | some entry => { status := 200, contentType := "text/calendar", body := entry.ics }
  | none => { status := 503, contentType := "text/plain",
              body := "cache not yet warmed, retry shortly" }

/- ===================== Store trace model (modelled) ==================== -/

/-- Modelled from the spec: the observable operations on the shared Cache
Store during a run (section 5): a cycle completing its single atomic swap,
a cycle skipping the swap on total failure, and a concurrent read by the
HTTP layer.  A cycle in flight touches the store only at its one swap, so
an interleaved trace of these operations is the whole concurrency model. -/
inductive StoreOp
  | swap (entry : CacheEntry)
  | skipSwap
  | read
deriving DecidableEq

/-- Modelled from the spec: whether a store operation is a swap. -/
def StoreOp.isSwap : StoreOp → Bool
  | .swap _ => true
  | _ => false

/-- Modelled from the spec: run a trace of store operations, returning the
final state together with the snapshot each read observed, in order. -/
def runTrace (st : SchedState) : List StoreOp → SchedState × List (Option CacheEntry)
  | [] => (st, [])
  | StoreOp.swap e :: ops => runTrace (replaceEntry st e) ops
  | StoreOp.skipSwap :: ops => runTrace st ops
  | StoreOp.read :: ops =>
    let r := runTrace st ops
    (r.1, readEntry st :: r.2)

/- ===================== Shared concrete samples ========================= -/

/-- A small well-formed ICS document used by several concrete witnesses. -/
def sampleIcs : String :=
  "BEGIN:VCALENDAR\r\nVERSION:2.0\r\nBEGIN:VEVENT\r\nUID:abc\r\nDTSTART:20240101T100000Z\r\nSUMMARY:Standup\r\nEND:VEVENT\r\nEND:VCALENDAR\r\n"

/-- A concrete fetch environment: the source good succeeds with the sample
document, every other source fails with a network error. -/
def sampleFetch : String → Except FetchError String := fun src =>
  if src = "good" then Except.ok sampleIcs else Except.error FetchError.network

/- ===================== Helper lemmas =================================== -/

theorem getProp_setProp_self (ps : List (String × Option String)) (k : String) (v : Option String) :
    getProp (setProp ps k v) k = some v := by
  induction ps with
  | nil => simp [setProp, getProp]
  | cons p ps ih =>
    by_cases h : p.1 = k
    · simp [setProp, getProp, h]
    · simp [setProp, getProp, h, ih]

theorem outcomeEvents_of_failed (o : SourceOutcome) (h : o.result.isOk = false) :
    outcomeEvents o = [] := by
  unfold outcomeEvents
  cases hr : o.result with
  | ok evs => rw [hr] at h; simp [Except.isOk, Except.toBool] at h
  | error e => rfl

theorem sum_lengths_filter_ok (outcomes : List SourceOutcome) :
    ((outcomes.filter (fun o => o.result.isOk)).map (fun o => (outcomeEvents o).length)).sum
      = (outcomes.map (fun o => (outcomeEvents o).length)).sum := by
  induction outcomes with
  | nil => rfl
  | cons o os ih =>
    by_cases h : o.result.isOk = true
    · simp [List.filter_cons, h, ih]
    · have h0 : o.result.isOk = false := by
        cases hb : o.result.isOk
        · rfl
        · exact absurd hb h
      simp [List.filter_cons, h0, ih, outcomeEvents_of_failed o h0]

theorem length_mergeTagged (outcomes : List SourceOutcome) :
    ((mergeTagged outcomes).map TaggedEvent.ev).length
      = (outcomes.map (fun o => (outcomeEvents o).length)).sum := by
  rw [List.length_map, mergeTagged,
    (List.perm_insertionSort tagLe (tagEvents (concatEvents outcomes))).length_eq,
    tagEvents, List.length_map, List.enum_length, concatEvents, List.length_flatten,
    List.map_map]
  rfl

/- ===================== C10 ============================================ -/

/-- C10: for every EventInput, the frontend eventDataTransform of
src/unnamed/part_000 sets the top-level url field to the empty string,
preserves the original url value under the key url of extendedProps, and
leaves all the other fields of the record unchanged. -/
theorem eventDataTransform_moves_url (input : EventInput) :
    (eventDataTransform input).url = some "" ∧
    getProp ((eventDataTransform input).extendedProps.getD []) "url" = some input.url ∧
    (eventDataTransform input).title = input.title ∧
    (eventDataTransform input).start = input.start ∧
    (eventDataTransform input).end_ = input.end_ ∧
    (eventDataTransform input).allDay = input.allDay ∧
    (eventDataTransform input).color = input.color := by
  refine ⟨rfl, ?_, rfl, rfl, rfl, rfl, rfl⟩
  show getProp (setProp (input.extendedProps.getD []) "url" input.url) "url" = some input.url
  exact getProp_setProp_self _ _ _

/- ===================== C1 ============================================= -/

/-- C1: in a refresh cycle in which every configured source fails (fetch or
parse), the scheduler does not call replace and the scheduler state — in
particular the live CacheEntry — after the cycle is identical to the state
before the cycle: good cached data is never replaced by an empty result. -/
theorem runCycle_total_failure_keeps_state (cfg : List String)
    (fetch : String → Except FetchError String) (name : String) (now : Nat)
    (st : SchedState)
    (h : ∀ src ∈ cfg, (runPipeline fetch src).result.isOk = false) :
    runCycle cfg fetch name now st = st := by
  have hall : (cfg.map (runPipeline fetch)).all (fun o => !o.result.isOk) = true := by
    rw [List.all_eq_true]
    intro o ho
    rw [List.mem_map] at ho
    obtain ⟨src, hs, rfl⟩ := ho
    rw [h src hs]
    rfl
  unfold runCycle runMerger
  simp [hall]

/-- Concrete instance for C1: two failing sources, a warm prior entry, and
the cycle leaves the state untouched. -/
theorem runCycle_total_failure_keeps_state_witness :
    (∀ src ∈ ["http://a", "http://b"],
      (runPipeline (fun _ => Except.error FetchError.timeout) src).result.isOk = false) ∧
    runCycle ["http://a", "http://b"] (fun _ => Except.error FetchError.timeout) "agg" 5
        ⟨some ⟨⟨"agg", 0, []⟩, "body", 0, []⟩, 3⟩
      = ⟨some ⟨⟨"agg", 0, []⟩, "body", 0, []⟩, 3⟩ :=
  ⟨by decide,
   runCycle_total_failure_keeps_state _ _ _ _ _ (by decide)⟩

/- ===================== C2 ============================================= -/

/-- C2: in a refresh cycle in which at least one configured source
succeeds, replace is called exactly once (the replace-call counter goes up
by exactly one), and the event count of the installed CacheEntry equals the sum
of the successfully parsed event counts over the succeeding sources; the
failed sources contribute zero events but do not abort the merge. -/
theorem runCycle_partial_success_replaces_once (cfg : List String)
    (fetch : String → Except FetchError String) (name : String) (now : Nat)
    (st : SchedState)
    (h : ∃ src ∈ cfg, (runPipeline fetch src).result.isOk = true) :
    (runCycle cfg fetch name now st).replaceCalls = st.replaceCalls + 1 ∧
    ∃ entry, (runCycle cfg fetch name now st).cache = some entry ∧
      entry.calendar.events.length =
        (((cfg.map (runPipeline fetch)).filter (fun o => o.result.isOk)).map
          (fun o => (outcomeEvents o).length)).sum := by
  obtain ⟨src, hs, hok⟩ := h
  have hall : ((cfg.map (runPipeline fetch)).all (fun o => !o.result.isOk)) = false := by
    rw [Bool.eq_false_iff]
    intro hc
    have h2 := List.all_eq_true.mp hc (runPipeline fetch src) (List.mem_map_of_mem _ hs)
    rw [hok] at h2
    exact absurd h2 (by decide)
  unfold runCycle runMerger
  simp only [hall, Bool.false_eq_true, if_false]
  refine ⟨rfl, ⟨_, rfl, ?_⟩⟩
  show ((mergeTagged (cfg.map (runPipeline fetch))).map TaggedEvent.ev).length = _
  rw [length_mergeTagged, sum_lengths_filter_ok]

/-- Concrete instance for C2: one succeeding and one failing source; the
counter goes from 3 to 4 and the entry holds the one parsed event. -/
theorem runCycle_partial_success_replaces_once_witness :
    (∃ src ∈ ["good", "http://down"],
      (runPipeline sampleFetch src).result.isOk = true) ∧
    (runCycle ["good", "http://down"] sampleFetch "agg" 5 ⟨none, 3⟩).replaceCalls = 3 + 1 ∧
    ∃ entry, (runCycle ["good", "http://down"] sampleFetch "agg" 5 ⟨none, 3⟩).cache = some entry ∧
      entry.calendar.events.length =
        ((([ "good", "http://down"].map (runPipeline sampleFetch)).filter
            (fun o => o.result.isOk)).map (fun o => (outcomeEvents o).length)).sum :=
  ⟨⟨"good", by decide, by decide⟩,
   runCycle_partial_success_replaces_once _ _ _ _ _ ⟨"good", by decide, by decide⟩⟩

/- ===================== Merger helper lemmas ============================ -/

theorem tagEvents_untag (evs : List CalendarEvent) :
    (tagEvents evs).map TaggedEvent.ev = evs := by
  rw [tagEvents, List.map_map]
  show List.map Prod.snd evs.enum = evs
  exact List.enum_map_snd evs

theorem tagEvents_idx (evs : List CalendarEvent) :
    (tagEvents evs).map TaggedEvent.idx = List.range evs.length := by
  rw [tagEvents, List.map_map]
  show List.map Prod.fst evs.enum = List.range evs.length
  exact List.enum_map_fst evs

theorem merged_events_eq (name : String) (now : Nat) (outcomes : List SourceOutcome)
    (cal : MergedCalendar) (h : runMerger name now outcomes = Except.ok cal) :
    cal.events = (mergeTagged outcomes).map TaggedEvent.ev := by
  unfold runMerger at h
  by_cases hc : (outcomes.all fun o => !o.result.isOk) = true
  · rw [if_pos hc] at h
    exact absurd h (by simp)
  · rw [if_neg hc] at h
    injection h with h2
    rw [← h2]

/- ===================== C3 ============================================= -/

/-- C3: in every MergedCalendar the Merger produces, the namespaced event
identifiers (source reference paired with source UID) are pairwise
distinct, provided the configured sources are pairwise distinct, every
event carries its own source as provenance, and UIDs do not repeat within
one source; cross-source UID collisions are thereby resolved, so two
sources each holding an event with the same UID yield two distinct merged
events. -/
theorem merger_namespaced_ids_nodup (outcomes : List SourceOutcome) (name : String)
    (now : Nat) (cal : MergedCalendar)
    (hm : runMerger name now outcomes = Except.ok cal)
    (hsrcs : (outcomes.map SourceOutcome.source).Nodup)
    (hprov : ∀ o ∈ outcomes, ∀ e ∈ outcomeEvents o, e.sourceUrl = o.source)
    (huid : ∀ o ∈ outcomes, ((outcomeEvents o).map CalendarEvent.uid).Nodup) :
    (cal.events.map namespacedId).Nodup := by
  rw [merged_events_eq name now outcomes cal hm]
  have hperm :
      (((mergeTagged outcomes).map TaggedEvent.ev).map namespacedId).Perm
        (((tagEvents (concatEvents outcomes)).map TaggedEvent.ev).map namespacedId) :=
    ((List.perm_insertionSort tagLe _).map TaggedEvent.ev).map namespacedId
  rw [hperm.nodup_iff, tagEvents_untag, concatEvents, List.map_flatten, List.map_map,
    List.nodup_flatten]
  constructor
  · intro l hl
    rw [List.mem_map] at hl
    obtain ⟨o, ho, rfl⟩ := hl
    show (List.map namespacedId (outcomeEvents o)).Nodup
    have hcong : List.map namespacedId (outcomeEvents o)
        = List.map (fun u => (o.source, u)) (List.map CalendarEvent.uid (outcomeEvents o)) := by
      rw [List.map_map]
      apply List.map_congr_left
      intro e he
      show namespacedId e = (o.source, e.uid)
      rw [namespacedId, hprov o ho e he]
    rw [hcong]
    exact (huid o ho).map (fun a b hab => by simpa using congrArg Prod.snd hab)
  · have hsrcs2 : List.Pairwise (fun a b : String => a ≠ b)
        (outcomes.map SourceOutcome.source) := hsrcs
    rw [List.pairwise_map] at hsrcs2
    rw [List.pairwise_map]
    refine List.Pairwise.imp_of_mem ?_ hsrcs2
    intro o1 o2 h1 h2 hne
    intro a ha1 ha2
    simp only [Function.comp_apply] at ha1 ha2
    rw [List.mem_map] at ha1 ha2
    obtain ⟨e1, he1, rfl⟩ := ha1
    obtain ⟨e2, he2, hEq⟩ := ha2
    apply hne
    have hp1 := hprov o1 h1 e1 he1
    have hp2 := hprov o2 h2 e2 he2
    have hfst : e2.sourceUrl = e1.sourceUrl := congrArg Prod.fst hEq
    rw [← hp1, ← hp2, hfst]

/-- Concrete instance for C3: two sources u1 and u2 each containing an
event with UID E1; the merge yields two distinct events whose namespaced
identifiers differ. -/
theorem merger_namespaced_ids_nodup_witness :
    runMerger "agg" 7
        [⟨"u1", Except.ok [⟨"E1", 20240101100000, none, some "Standup", none, none, "u1", []⟩]⟩,
         ⟨"u2", Except.ok [⟨"E1", 20240101090000, none, some "Planning", none, none, "u2", []⟩]⟩]
      = Except.ok ⟨"agg", 7,
          [⟨"E1", 20240101090000, none, some "Planning", none, none, "u2", []⟩,
           ⟨"E1", 20240101100000, none, some "Standup", none, none, "u1", []⟩]⟩ ∧
    ((([⟨"E1", 20240101090000, none, some "Planning", none, none, "u2", []⟩,
        ⟨"E1", 20240101100000, none, some "Standup", none, none, "u1", []⟩] :
          List CalendarEvent)).map namespacedId).Nodup :=
  ⟨rfl,
   merger_namespaced_ids_nodup
     [⟨"u1", Except.ok [⟨"E1", 20240101100000, none, some "Standup", none, none, "u1", []⟩]⟩,
      ⟨"u2", Except.ok [⟨"E1", 20240101090000, none, some "Planning", none, none, "u2", []⟩]⟩]
     "agg" 7
     ⟨"agg", 7,
       [⟨"E1", 20240101090000, none, some "Planning", none, none, "u2", []⟩,
        ⟨"E1", 20240101100000, none, some "Standup", none, none, "u1", []⟩]⟩
     rfl (by decide) (by decide) (by decide)⟩

/- ===================== C4 ============================================= -/

/-- C4: the merged tagged sequence of every cycle is exactly the stable
sort of the tagged concatenation by start timestamp: it is a permutation of
the concatenation of the events of the succeeding sources (source order, then
within-source order), it is strictly ordered by (start, concatenation
position) — so equal starts keep source order then within-source order —
and re-running the merge on identical per-source inputs gives byte-identical
serialized ICS output (in particular the cycle timestamp does not leak into
the serialization). -/
theorem merge_ordering_deterministic (name : String) (now1 now2 : Nat)
    (outcomes : List SourceOutcome) :
    List.Pairwise (fun a b : TaggedEvent =>
        a.ev.start < b.ev.start ∨ (a.ev.start = b.ev.start ∧ a.idx < b.idx))
      (mergeTagged outcomes)
    ∧ ((mergeTagged outcomes).map TaggedEvent.ev).Perm (concatEvents outcomes)
    ∧ (runMerger name now1 outcomes).toOption.map serializeIcs
        = (runMerger name now2 outcomes).toOption.map serializeIcs := by
  refine ⟨?_, ?_, ?_⟩
  · have hs : List.Pairwise tagLe (mergeTagged outcomes) :=
      List.sorted_insertionSort tagLe (tagEvents (concatEvents outcomes))
    have hperm := List.perm_insertionSort tagLe (tagEvents (concatEvents outcomes))
    have hnodup : ((mergeTagged outcomes).map TaggedEvent.idx).Nodup := by
      refine ((hperm.map TaggedEvent.idx).nodup_iff).mpr ?_
      rw [tagEvents_idx]
      exact List.nodup_range _
    have hpne : List.Pairwise (fun a b : TaggedEvent => a.idx ≠ b.idx) (mergeTagged outcomes) :=
      List.pairwise_map.mp hnodup
    refine (hs.and hpne).imp ?_
    intro a b hab
    obtain ⟨h1, h2⟩ := hab
    rcases h1 with h1 | h1
    · exact Or.inl h1
    · exact Or.inr ⟨h1.1, lt_of_le_of_ne h1.2 h2⟩
  · have hperm := (List.perm_insertionSort tagLe (tagEvents (concatEvents outcomes))).map
      TaggedEvent.ev
    rwa [tagEvents_untag] at hperm
  · unfold runMerger
    by_cases hc : (outcomes.all fun o => !o.result.isOk) = true
    · simp only [if_pos hc]
    · simp only [if_neg hc]
      rfl

/- ===================== Parser helper lemmas ============================ -/

theorem scanBlocks_inner (b : List String) (rest : List String) (acc : List String)
    (h : "END:VEVENT" ∉ b) :
    scanBlocks (b ++ "END:VEVENT" :: rest) (some acc) = (acc ++ b) :: scanBlocks rest none := by
  induction b generalizing acc with
  | nil => simp [scanBlocks]
  | cons l ls ih =>
    rw [List.mem_cons] at h
    push_neg at h
    obtain ⟨h1, h2⟩ := h
    rw [List.cons_append]
    show scanBlocks (l :: (ls ++ "END:VEVENT" :: rest)) (some acc) = _
    rw [scanBlocks, if_neg (fun hh => h1 hh.symm), ih _ h2]
    simp

theorem scanBlocks_doc (blocks : List (List String))
    (h : ∀ b ∈ blocks, "END:VEVENT" ∉ b) :
    scanBlocks ((blocks.map veventWrap).flatten ++ ["END:VCALENDAR"]) none = blocks := by
  induction blocks with
  | nil =>
    show scanBlocks ["END:VCALENDAR"] none = []
    rw [scanBlocks, if_neg (by decide)]
    rfl
  | cons b bs ih =>
    have hb := h b (List.mem_cons_self b bs)
    have hbs : ∀ x ∈ bs, "END:VEVENT" ∉ x := fun x hx => h x (List.mem_cons_of_mem b hx)
    rw [List.map_cons, List.flatten_cons, veventWrap]
    show scanBlocks ("BEGIN:VEVENT" :: ((b ++ ["END:VEVENT"]) ++ (bs.map veventWrap).flatten
      ++ ["END:VCALENDAR"])) none = b :: bs
    rw [scanBlocks, if_pos rfl]
    have hassoc : (b ++ ["END:VEVENT"]) ++ (bs.map veventWrap).flatten ++ ["END:VCALENDAR"]
        = b ++ "END:VEVENT" :: ((bs.map veventWrap).flatten ++ ["END:VCALENDAR"]) := by
      simp
    rw [hassoc, scanBlocks_inner b _ [] hb, List.nil_append, ih hbs]

/- ===================== C5 ============================================= -/

/-- C5: parsing an ICS document whose body is a sequence of VEVENT blocks
never fails as a whole: every malformed block is skipped, every remaining
block contributes its parsed event, and the number of skipped blocks is
recorded.  In particular a document with well-formed events A, B, C, a
malformed block, then D yields exactly the events A, B, C, D and a skipped
count of 1 (the witness below). -/
theorem parser_skips_malformed_blocks (src : String) (blocks : List (List String))
    (h : ∀ b ∈ blocks, "END:VEVENT" ∉ b) :
    parseIcsLines src (docLines blocks) =
      Except.ok { events := blocks.filterMap (parseBlock src),
                  skipped := (blocks.filter (fun b => (parseBlock src b).isNone)).length } := by
  have hscan : scanBlocks (docLines blocks) none = blocks := by
    show scanBlocks ("BEGIN:VCALENDAR"
      :: ((blocks.map veventWrap).flatten ++ ["END:VCALENDAR"])) none = blocks
    rw [scanBlocks, if_neg (by decide)]
    exact scanBlocks_doc blocks h
  have hcontains : (docLines blocks).contains "BEGIN:VCALENDAR" = true := by
    simp [docLines, List.contains_cons]
  unfold parseIcsLines
  rw [if_pos hcontains, hscan]

/-- Concrete instance for C5: a document with events A, B, C, one malformed
block (a line without a colon), then event D parses to exactly the four
events with a skipped-block count of 1. -/
theorem parser_skips_malformed_blocks_witness :
    (∀ b ∈ [["UID:A", "DTSTART:20240101T090000Z", "SUMMARY:A"],
            ["UID:B", "DTSTART:20240101T100000Z"],
            ["UID:C", "DTSTART:20240101T110000Z"],
            ["THIS IS NOT A PROPERTY LINE"],
            ["UID:D", "DTSTART:20240101T120000Z"]], "END:VEVENT" ∉ b) ∧
    parseIcsLines "u" (docLines
        [["UID:A", "DTSTART:20240101T090000Z", "SUMMARY:A"],
         ["UID:B", "DTSTART:20240101T100000Z"],
         ["UID:C", "DTSTART:20240101T110000Z"],
         ["THIS IS NOT A PROPERTY LINE"],
         ["UID:D", "DTSTART:20240101T120000Z"]])
      = Except.ok
          { events := [⟨"A", 20240101090000, none, some "A", none, none, "u", []⟩,
                       ⟨"B", 20240101100000, none, none, none, none, "u", []⟩,
                       ⟨"C", 20240101110000, none, none, none, none, "u", []⟩,
                       ⟨"D", 20240101120000, none, none, none, none, "u", []⟩],
            skipped := 1 } :=
  ⟨by decide,
   (parser_skips_malformed_blocks "u"
       [["UID:A", "DTSTART:20240101T090000Z", "SUMMARY:A"],
        ["UID:B", "DTSTART:20240101T100000Z"],
        ["UID:C", "DTSTART:20240101T110000Z"],
        ["THIS IS NOT A PROPERTY LINE"],
        ["UID:D", "DTSTART:20240101T120000Z"]] (by decide)).trans
     (congrArg Except.ok (by decide))⟩

/- ===================== C6 helper lemmas ================================ -/

theorem splitAtColon_append (nc vc : List Char) (h : ':' ∉ nc) :
    splitAtColon (nc ++ ':' :: vc) = some (nc, vc) := by
  induction nc with
  | nil => simp [splitAtColon]
  | cons c cs ih =>
    rw [List.mem_cons] at h
    push_neg at h
    obtain ⟨h1, h2⟩ := h
    rw [List.cons_append, splitAtColon, if_neg (fun hh => h1 hh.symm), ih h2]
    rfl

theorem takeWhile_no_semicolon (cs : List Char) (h : ';' ∉ cs) :
    cs.takeWhile (fun c => c != ';') = cs := by
  rw [List.takeWhile_eq_self_iff]
  intro x hx
  simp only [bne_iff_ne, ne_eq]
  exact fun hh => h (hh ▸ hx)

theorem toList_prop_line (n v : String) :
    (n ++ ":" ++ v).toList = n.toList ++ ':' :: v.toList := by
  show (n ++ ":" ++ v).data = n.data ++ ':' :: v.data
  rw [String.data_append, String.data_append]
  simp

theorem parseProp_unrecognized (st : BlockState) (n v : String)
    (hcolon : ':' ∉ n.toList) (hsemi : ';' ∉ n.toList) (hrec : n ∉ recognizedNames) :
    parseProp st (n ++ ":" ++ v) = { st with ext := st.ext ++ [(n, v)] } := by
  have hn : String.mk (n.toList.takeWhile (fun c => c != ';')) = n := by
    rw [takeWhile_no_semicolon _ hsemi]
    rfl
  have hv : String.mk v.toList = v := rfl
  simp only [recognizedNames, List.mem_cons, List.mem_singleton] at hrec
  push_neg at hrec
  obtain ⟨h1, h2, h3, h4, h5, h6, -⟩ := hrec
  unfold parseProp
  rw [toList_prop_line, splitAtColon_append _ _ hcolon]
  simp only [hn, hv]
  rw [if_neg h1, if_neg h2, if_neg h3, if_neg h4, if_neg h5, if_neg h6]

theorem parseProp_ext_mono (st : BlockState) (line : String) (p : String × String)
    (h : p ∈ st.ext) : p ∈ (parseProp st line).ext := by
  unfold parseProp
  cases hs : splitAtColon line.toList with
  | none => exact h
  | some pr =>
    obtain ⟨nameRaw, valueRaw⟩ := pr
    dsimp only
    split_ifs
    · exact h
    · cases parseDT (String.mk valueRaw) <;> exact h
    · cases parseDT (String.mk valueRaw) <;> exact h
    · exact h
    · exact h
    · exact h
    · exact List.mem_append_left _ h

theorem foldl_parseProp_ext_mono (lines : List String) (st : BlockState) (p : String × String)
    (h : p ∈ st.ext) : p ∈ (lines.foldl parseProp st).ext := by
  induction lines generalizing st with
  | nil => exact h
  | cons l ls ih => exact ih _ (parseProp_ext_mono st l p h)

theorem foldl_parseProp_ext_of_mem (lines : List String) (st : BlockState) (n v : String)
    (hmem : (n ++ ":" ++ v) ∈ lines)
    (hcolon : ':' ∉ n.toList) (hsemi : ';' ∉ n.toList) (hrec : n ∉ recognizedNames) :
    (n, v) ∈ (lines.foldl parseProp st).ext := by
  induction lines generalizing st with
  | nil => cases hmem
  | cons l ls ih =>
    rcases List.mem_cons.mp hmem with he | hm
    · rw [List.foldl_cons, ← he, parseProp_unrecognized st n v hcolon hsemi hrec]
      exact foldl_parseProp_ext_mono ls _ _ (by simp)
    · rw [List.foldl_cons]
      exact ih _ hm

theorem parseBlock_ext_eq (src : String) (lines : List String) (e : CalendarEvent)
    (h : parseBlock src lines = some e) :
    e.extendedProps = (lines.foldl parseProp initBlockState).ext := by
  unfold parseBlock at h
  by_cases hb : (lines.foldl parseProp initBlockState).broken = true
  · rw [if_pos hb] at h
    cases h
  · rw [if_neg hb] at h
    cases hu : (lines.foldl parseProp initBlockState).uid with
    | none =>
      rw [hu] at h
      cases hd : (lines.foldl parseProp initBlockState).dtstart with
      | none => rw [hd] at h; cases h
      | some t => rw [hd] at h; cases h
    | some u =>
      rw [hu] at h
      cases hd : (lines.foldl parseProp initBlockState).dtstart with
      | none => rw [hd] at h; cases h
      | some t =>
        rw [hd] at h
        injection h with h2
        rw [← h2]

/- ===================== C6 ============================================= -/

/-- C6: every property line of a successfully parsed VEVENT block whose
name is not one of the recognized field names — in particular every name
prefixed with X-, such as a custom color marker — is preserved with its raw
value in the extended-properties bag of the event, a key-to-value mapping rather than
dropped (the name must be free of colon and semicolon, which every X-
name is). -/
theorem parser_preserves_unrecognized_props (src : String) (lines : List String)
    (e : CalendarEvent) (n v : String)
    (hp : parseBlock src lines = some e)
    (hcolon : ':' ∉ n.toList) (hsemi : ';' ∉ n.toList)
    (hrec : n ∉ recognizedNames)
    (hmem : (n ++ ":" ++ v) ∈ lines) :
    (n, v) ∈ e.extendedProps := by
  rw [parseBlock_ext_eq src lines e hp]
  exact foldl_parseProp_ext_of_mem lines initBlockState n v hmem hcolon hsemi hrec

/-- Concrete instance for C6: a block carrying the custom marker
X-COLOR:red parses to an event whose extended properties contain the pair
(X-COLOR, red). -/
theorem parser_preserves_unrecognized_props_witness :
    parseBlock "u" ["UID:a", "DTSTART:20240101T100000Z", "X-COLOR:red"]
      = some ⟨"a", 20240101100000, none, none, none, none, "u", [("X-COLOR", "red")]⟩ ∧
    ("X-COLOR", "red") ∈
      (⟨"a", 20240101100000, none, none, none, none, "u",
        [("X-COLOR", "red")]⟩ : CalendarEvent).extendedProps :=
  ⟨by decide,
   parser_preserves_unrecognized_props "u"
     ["UID:a", "DTSTART:20240101T100000Z", "X-COLOR:red"]
     ⟨"a", 20240101100000, none, none, none, none, "u", [("X-COLOR", "red")]⟩
     "X-COLOR" "red" (by decide) (by decide) (by decide) (by decide) (by decide)⟩

/- ===================== C7 ============================================= -/

/-- C7: the read endpoint serves the current cached merged calendar as ICS
text with Content-Type text/calendar and status 200 whenever the cache has
been warmed; when the store was never warmed it answers 503 with a retry
hint (the implementation choice the spec allows); and every entry the
scheduler can install carries a complete well-formed ICS body, so the
endpoint never serves a partial or corrupt document. -/
theorem calendar_get_contract (st : SchedState) :
    (∀ e, st.cache = some e →
      handleCalendarGet st = ⟨200, "text/calendar", e.ics⟩) ∧
    (st.cache = none →
      (handleCalendarGet st).status = 503 ∧
      (handleCalendarGet st).body = "cache not yet warmed, retry shortly") ∧
    (∀ (now : Nat) (cal : MergedCalendar) (outcomes : List SourceOutcome),
      wellFormedIcs (mkCacheEntry now cal outcomes).ics) := by
  refine ⟨?_, ?_, ?_⟩
  · intro e he
    unfold handleCalendarGet readEntry
    rw [he]
  · intro he
    unfold handleCalendarGet readEntry
    rw [he]
    exact ⟨rfl, rfl⟩
  · intro now cal outcomes
    exact ⟨String.join (cal.events.map serializeEvent), rfl⟩

/-- Concrete instance for C7: a warm store serves 200 with the cached body,
an unwarmed store serves 503, and a scheduler-built entry is well-formed. -/
theorem calendar_get_contract_witness :
    handleCalendarGet ⟨some (mkCacheEntry 0 ⟨"agg", 0, []⟩ []), 1⟩
      = ⟨200, "text/calendar", (mkCacheEntry 0 ⟨"agg", 0, []⟩ []).ics⟩ ∧
    (handleCalendarGet ⟨none, 0⟩).status = 503 ∧
    wellFormedIcs (mkCacheEntry 0 ⟨"agg", 0, []⟩ []).ics :=
  ⟨(calendar_get_contract ⟨some (mkCacheEntry 0 ⟨"agg", 0, []⟩ []), 1⟩).1 _ rfl,
   ((calendar_get_contract ⟨none, 0⟩).2.1 rfl).1,
   (calendar_get_contract ⟨none, 0⟩).2.2 0 ⟨"agg", 0, []⟩ []⟩

/- ===================== C8 ============================================= -/

/-- C8: the first refresh cycle runs immediately at process start — cycle 0
starts at time 0, not after one interval — and after that first cycle
completes with a source that contributed at least one event, a read returns
a warmed, non-empty cache whose entry was produced at time 0. -/
theorem first_cycle_immediate_and_warm (interval : Nat) (cfg : List String)
    (fetch : Nat → String → Except FetchError String) (name : String) :
    cycleStart interval 0 = 0 ∧
    ∀ src ∈ cfg, 0 < (outcomeEvents (runPipeline (fetch 0) src)).length →
      ∃ entry, readEntry (runCycles cfg fetch name interval 1) = some entry ∧
        entry.calendar.events ≠ [] ∧ entry.lastUpdated = 0 := by
  refine ⟨by simp [cycleStart], ?_⟩
  intro src hs hpos
  have hok : (runPipeline (fetch 0) src).result.isOk = true := by
    by_contra hc
    have h0 : (runPipeline (fetch 0) src).result.isOk = false := by
      cases hb : (runPipeline (fetch 0) src).result.isOk
      · rfl
      · exact absurd hb hc
    rw [outcomeEvents_of_failed _ h0] at hpos
    simp at hpos
  have hall : ((cfg.map (runPipeline (fetch 0))).all fun o => !o.result.isOk) = false := by
    rw [Bool.eq_false_iff]
    intro hc
    have h2 := List.all_eq_true.mp hc _ (List.mem_map_of_mem _ hs)
    rw [hok] at h2
    exact absurd h2 (by decide)
  show ∃ entry,
    readEntry (runCycle cfg (fetch 0) name (cycleStart interval 0) initSchedState) = some entry ∧
      entry.calendar.events ≠ [] ∧ entry.lastUpdated = 0
  unfold runCycle runMerger
  simp only [hall, Bool.false_eq_true, if_false]
  refine ⟨_, rfl, ?_, ?_⟩
  · show (mergeTagged (cfg.map (runPipeline (fetch 0)))).map TaggedEvent.ev ≠ []
    refine List.length_pos.mp ?_
    rw [length_mergeTagged]
    have hmem : (outcomeEvents (runPipeline (fetch 0) src)).length
        ∈ (cfg.map (runPipeline (fetch 0))).map (fun o => (outcomeEvents o).length) :=
      List.mem_map_of_mem _ (List.mem_map_of_mem _ hs)
    exact lt_of_lt_of_le hpos (List.single_le_sum (fun x _ => Nat.zero_le x) _ hmem)
  · show cycleStart interval 0 = 0
    simp [cycleStart]

/-- Concrete instance for C8: with a refresh interval of 300 seconds and
one succeeding source, the first cycle runs at time 0 and leaves a warmed,
non-empty cache stamped with time 0. -/
theorem first_cycle_immediate_and_warm_witness :
    cycleStart 300 0 = 0 ∧
    0 < (outcomeEvents (runPipeline ((fun _ => sampleFetch) 0) "good")).length ∧
    ∃ entry, readEntry (runCycles ["good"] (fun _ => sampleFetch) "agg" 300 1) = some entry ∧
      entry.calendar.events ≠ [] ∧ entry.lastUpdated = 0 :=
  ⟨(first_cycle_immediate_and_warm 300 ["good"] (fun _ => sampleFetch) "agg").1,
   by decide,
   (first_cycle_immediate_and_warm 300 ["good"] (fun _ => sampleFetch) "agg").2
     "good" (by decide) (by decide)⟩

/- ===================== C9 ============================================= -/

/-- C9: along every interleaved trace of store operations, a read returns
the current entry (or the not-yet-warmed sentinel) as a pure snapshot:
while no swap has happened — in particular while a refresh cycle is still
in flight — every read observes exactly the prior entry, and in general
every read observes either the prior entry or some wholly swapped entry,
never a partially-written one. -/
theorem reads_nonblocking_snapshot (st : SchedState) (ops : List StoreOp) :
    ((∀ op ∈ ops, op.isSwap = false) →
      ∀ o ∈ (runTrace st ops).2, o = readEntry st) ∧
    (∀ o ∈ (runTrace st ops).2,
      o = readEntry st ∨ ∃ e, StoreOp.swap e ∈ ops ∧ o = some e) := by
  induction ops generalizing st with
  | nil =>
    exact ⟨fun _ o ho => absurd ho (List.not_mem_nil o),
           fun o ho => absurd ho (List.not_mem_nil o)⟩
  | cons op ops ih =>
    cases op with
    | swap e =>
      constructor
      · intro h
        exact absurd (h (StoreOp.swap e) (List.mem_cons_self _ _)) (by simp [StoreOp.isSwap])
      · intro o ho
        rcases (ih (replaceEntry st e)).2 o ho with h1 | ⟨e2, he2, h2⟩
        · exact Or.inr ⟨e, List.mem_cons_self _ _, h1⟩
        · exact Or.inr ⟨e2, List.mem_cons_of_mem _ he2, h2⟩
    | skipSwap =>
      constructor
      · intro h o ho
        exact (ih st).1 (fun op2 hop => h op2 (List.mem_cons_of_mem _ hop)) o ho
      · intro o ho
        rcases (ih st).2 o ho with h1 | ⟨e2, he2, h2⟩
        · exact Or.inl h1
        · exact Or.inr ⟨e2, List.mem_cons_of_mem _ he2, h2⟩
    | read =>
      constructor
      · intro h o ho
        rcases List.mem_cons.mp ho with h1 | h1
        · exact h1
        · exact (ih st).1 (fun op2 hop => h op2 (List.mem_cons_of_mem _ hop)) o h1
      · intro o ho
        rcases List.mem_cons.mp ho with h1 | h1
        · exact Or.inl h1
        · rcases (ih st).2 o h1 with h2 | ⟨e2, he2, h2⟩
          · exact Or.inl h2
          · exact Or.inr ⟨e2, List.mem_cons_of_mem _ he2, h2⟩

/-- Concrete instance for C9: two reads interleaved with a cycle that never
swaps both observe the prior warm entry. -/
theorem reads_nonblocking_snapshot_witness :
    (∀ op ∈ [StoreOp.read, StoreOp.skipSwap, StoreOp.read], op.isSwap = false) ∧
    ∀ o ∈ (runTrace ⟨some ⟨⟨"agg", 0, []⟩, "b", 0, []⟩, 1⟩
        [StoreOp.read, StoreOp.skipSwap, StoreOp.read]).2,
      o = readEntry ⟨some ⟨⟨"agg", 0, []⟩, "b", 0, []⟩, 1⟩ :=
  ⟨by decide,
   (reads_nonblocking_snapshot ⟨some ⟨⟨"agg", 0, []⟩, "b", 0, []⟩, 1⟩
     [StoreOp.read, StoreOp.skipSwap, StoreOp.read]).1 (by decide)⟩
